import Mathlib

/-!
Verification of the ConversationMemoryStore (`ChatDB`) wrapper.

The source is a small Python class over a vector-store client:
`__init__`, `add_conversation_to_db`, `get_all_entries`, `clear_db`,
`query_db`, plus a plain integer field `id_counter`.

The vector-store backend (client, collections, nearest-neighbor search)
is an external collaborator, so its operations are modelled from the
specification of the backend boundary: a client holds collections keyed
by name; `create_collection` opens or creates a named collection;
`delete_collection` removes it; operations on a missing collection fail
with a NotFound-class error; `query` returns results ranked ascending by
distance, truncated to the number of stored entries.

Embedding distances are abstracted as a function from (query text,
document) to a rational number, since the embedding provider is external.
-/

namespace ChatStore

/-- Metadata persisted with each turn, mirroring the dict
`{"user_message": user_message, "ai_message": ai_message}` in the source. -/
structure Metadata where
  user_message : String
  ai_message : String
deriving Repr, DecidableEq

/-- One stored record of the collection: an id string, the composite
document, and the metadata dict. -/
structure Entry where
  id : String
  document : String
  metadata : Metadata
deriving Repr, DecidableEq

/-- Error classes surfaced by the backend, following the error taxonomy of
the specification. -/
inductive ChromaErr where
  | notFound
  | connectionFailure
  | invalidModel
deriving Repr, DecidableEq

/-- A backend collection: its distance metric configuration and the
stored entries in insertion order. -/
structure Collection where
  metric : String
  entries : List Entry
deriving Repr, DecidableEq

/-- The state of the persistent client: collections keyed by name. -/
abbrev Colls := List (String × Collection)

/-- Look up a collection by name in the client state. -/
def findColl : Colls → String → Option Collection
  | [], _ => none
  | (m, c) :: cs, n => if m = n then some c else findColl cs n

/-- Replace the collection stored under a name. -/
def setColl : Colls → String → Collection → Colls
  | [], _, _ => []
  | (m, c) :: cs, n, c2 => if m = n then (m, c2) :: cs else (m, c) :: setColl cs n c2

/-- Remove the collection stored under a name, as `delete_collection` does. -/
def eraseColl : Colls → String → Colls
  | [], _ => []
  | (m, c) :: cs, n => if m = n then eraseColl cs n else (m, c) :: eraseColl cs n

/-- Reachability of the backend and validity of embedding-model
identifiers, the two failure sources the specification assigns to
construction. -/
structure Backend where
  reachable : Bool
  valid_model : String → Bool

/-- Modelled from the spec: the backend boundary operation
`create_collection(name, metric)`. It opens the named persistent
collection if it already exists and creates it otherwise, configured with
cosine distance; it fails when the backend is unreachable or the
embedding-model identifier is invalid. -/
def create_collection (b : Backend) (model_name : String) (colls : Colls) (name : String) :
    Except ChromaErr Colls :=
  if b.reachable = false then .error .connectionFailure
  else if b.valid_model model_name = false then .error .invalidModel
  else
    match findColl colls name with
    | some c => .ok (setColl colls name { c with metric := "cosine" })
    | none => .ok (colls ++ [(name, { metric := "cosine", entries := [] })])

/-- The state of one `ChatDB` object: the configured embedding model name,
the client-side collection store, the name of the collection handle held
in `self.chat_db`, and the in-memory id counter. -/
structure ChatDB where
  model_name : String
  client : Colls
  chat_db_name : String
  id_counter : Nat
deriving Repr

/-- ChatDB.__init__: creates (or, per the spec model, opens) the named
collection with the given embedding model and cosine distance and sets
`id_counter` to zero. -/
def ChatDB.init (b : Backend) (colls : Colls) (name model_name : String) :
    Except ChromaErr ChatDB :=
  match create_collection b model_name colls name with
  | .error e => .error e
  | .ok colls2 =>
      .ok { model_name := model_name, client := colls2, chat_db_name := name, id_counter := 0 }

/-- The record built by `add_conversation_to_db` for a given counter value:
document `"User: {user_message}\nAI: {ai_message}"`, metadata
`{user_message, ai_message}`, id `str(counter)`. -/
def mkEntry (counter : Nat) (user_message ai_message : String) : Entry :=
  { id := toString counter
  , document := "User: " ++ user_message ++ "\nAI: " ++ ai_message
  , metadata := { user_message := user_message, ai_message := ai_message } }

/-- Modelled from the spec: the backend collection write
`add(id, vector, document, metadata)`. It appends the entry to the named
collection and fails with a NotFound-class error when the collection has
been deleted. -/
def chroma_add (colls : Colls) (name : String) (e : Entry) : Except ChromaErr Colls :=
  match findColl colls name with
  | none => .error .notFound
  | some c => .ok (setColl colls name { c with entries := c.entries ++ [e] })

/-- ChatDB.add_conversation_to_db: builds the composite document and
metadata, submits the write to the backend (abstracted as `w` so that
arbitrary backend outcomes can be quantified over; the live backend is
`chroma_add`), and increments `id_counter` only after the write returns.
The returned pair is the object state after the call together with the
outcome; when the write raises, the exception propagates before the
counter increment, so the state is unchanged. -/
def ChatDB.add_conversation_to_db (w : Colls → String → Entry → Except ChromaErr Colls)
    (db : ChatDB) (user_message ai_message : String) : ChatDB × Except ChromaErr Unit :=
  match w db.client db.chat_db_name (mkEntry db.id_counter user_message ai_message) with
  | .error e => (db, .error e)
  | .ok colls2 => ({ db with client := colls2, id_counter := db.id_counter + 1 }, .ok ())

/-- ChatDB.get_all_entries: returns every stored entry of the collection;
fails with a NotFound-class error when the collection has been deleted. -/
def ChatDB.get_all_entries (db : ChatDB) : ChatDB × Except ChromaErr (List Entry) :=
  match findColl db.client db.chat_db_name with
  | none => (db, .error .notFound)
  | some c => (db, .ok c.entries)

/-- Ranking relation on distance-annotated entries: ascending distance. -/
def distLE (p q : Entry × ℚ) : Prop := p.2 ≤ q.2

instance : DecidableRel distLE := fun p q => inferInstanceAs (Decidable (p.2 ≤ q.2))

instance : IsTotal (Entry × ℚ) distLE := ⟨fun p q => le_total p.2 q.2⟩

instance : IsTrans (Entry × ℚ) distLE := ⟨fun _ _ _ h1 h2 => le_trans h1 h2⟩

/-- ChatDB.query_db: embeds the query text and performs nearest-neighbor
search. Modelled from the spec backend boundary: every stored entry is
annotated with its distance to the query under the abstract distance
function `d`, the list is ranked ascending by distance, and the result is
truncated to `n_results` (silent truncation to the stored count when
`n_results` exceeds it). Fails with a NotFound-class error when the
collection has been deleted. -/
def ChatDB.query_db (d : String → String → ℚ) (db : ChatDB) (query_text : String)
    (n_results : Nat) : ChatDB × Except ChromaErr (List (Entry × ℚ)) :=
  match findColl db.client db.chat_db_name with
  | none => (db, .error .notFound)
  | some c =>
      (db, .ok ((List.insertionSort distLE
        (c.entries.map (fun e => (e, d query_text e.document)))).take n_results))

/-- ChatDB.clear_db: deletes the entire collection
(`delete_collection(self.chat_db.name)`, which fails with a
NotFound-class error when the collection is already gone), then, when
`reinitialize` is set, re-runs `__init__` with the same name and model,
which recreates an empty collection and resets the counter to zero. -/
def ChatDB.clear_db (b : Backend) (db : ChatDB) ( reinitialize : Bool) :
    ChatDB × Except ChromaErr Unit :=
  match findColl db.client db.chat_db_name with
  | none => (db, .error .notFound)
  | some _ =>
      let colls := eraseColl db.client db.chat_db_name
      if reinitialize then
        match ChatDB.init b colls db.chat_db_name db.model_name with
        | .error e => ({ db with client := colls }, .error e)
        | .ok db2 => (db2, .ok ())
      else ({ db with client := colls }, .ok ())

/-- Iterated `add_conversation_to_db` against the live backend, one call
per (user_message, ai_message) pair. -/
def addTurns (db : ChatDB) : List (String × String) → ChatDB
  | [] => db
  | (u, a) :: ts => addTurns (ChatDB.add_conversation_to_db chroma_add db u a).1 ts

/-- The entries produced by a run of adds starting at counter value k. -/
def entriesFrom (k : Nat) : List (String × String) → List Entry
  | [] => []
  | (u, a) :: ts => mkEntry k u a :: entriesFrom (k + 1) ts

/-! Association-list lemmas about the modelled client state. -/

theorem findColl_setColl_self (cs : Colls) (n : String) (c c2 : Collection)
    (h : findColl cs n = some c) : findColl (setColl cs n c2) n = some c2 := by
  induction cs with
  | nil => simp [findColl] at h
  | cons p cs ih =>
    obtain ⟨m, c0⟩ := p
    by_cases hm : m = n
    · subst hm
      simp [findColl, setColl]
    · simp only [findColl, setColl, if_neg hm] at h ⊢
      exact ih h

theorem findColl_eraseColl_self (cs : Colls) (n : String) :
    findColl (eraseColl cs n) n = none := by
  induction cs with
  | nil => simp [findColl, eraseColl]
  | cons p cs ih =>
    obtain ⟨m, c0⟩ := p
    by_cases hm : m = n
    · simpa [eraseColl, hm] using ih
    · simpa [eraseColl, findColl, hm] using ih

theorem findColl_append_right (cs : Colls) (n : String) (c : Collection)
    (h : findColl cs n = none) : findColl (cs ++ [(n, c)]) n = some c := by
  induction cs with
  | nil => simp [findColl]
  | cons p cs ih =>
    obtain ⟨m, c0⟩ := p
    by_cases hm : m = n
    · simp [findColl, hm] at h
    · simp only [findColl, if_neg hm, List.cons_append] at h ⊢
      exact ih h

/-! Decimal representation: `str(id_counter)` in the source is `Nat.repr`
in the embedding. The backend keys records by these strings, so id
uniqueness reduces to injectivity of `Nat.repr`, proved here through a
digits round trip. -/

/-- The decimal digit list of a natural number, most significant first. -/
def digitsOf (n : Nat) : List Char :=
  if _ : n < 10 then [Nat.digitChar n]
  else digitsOf (n / 10) ++ [Nat.digitChar (n % 10)]
decreasing_by exact Nat.div_lt_self (by omega) (by omega)

theorem toDigitsCore_eq_digitsOf (fuel n : Nat) (ds : List Char) (h : n < fuel) :
    Nat.toDigitsCore 10 fuel n ds = digitsOf n ++ ds := by
  induction fuel generalizing n ds with
  | zero => exact absurd h (Nat.not_lt_zero n)
  | succ f ih =>
    by_cases h10 : n < 10
    · have hdiv : n / 10 = 0 := Nat.div_eq_of_lt h10
      have hd : digitsOf n = [Nat.digitChar n] := by
        rw [digitsOf]
        exact dif_pos h10
      have hmod : n % 10 = n := Nat.mod_eq_of_lt h10
      simp [Nat.toDigitsCore, hdiv, hd, hmod]
    · have hne : ¬ n / 10 = 0 := by
        have : 0 < n / 10 := Nat.div_pos (by omega) (by omega)
        omega
      have hd : digitsOf n = digitsOf (n / 10) ++ [Nat.digitChar (n % 10)] := by
        rw [digitsOf]
        exact dif_neg h10
      have hlt : n / 10 < f := by
        have : n / 10 < n := Nat.div_lt_self (by omega) (by omega)
        omega
      simp only [Nat.toDigitsCore, if_neg hne]
      rw [ih (n / 10) (Nat.digitChar (n % 10) :: ds) hlt, hd, List.append_assoc,
        List.singleton_append]

theorem toDigits_eq_digitsOf (n : Nat) : Nat.toDigits 10 n = digitsOf n := by
  rw [Nat.toDigits, toDigitsCore_eq_digitsOf (n + 1) n [] (Nat.lt_succ_self n),
    List.append_nil]

/-- Numeric value of a decimal digit character. -/
def digitVal (c : Char) : Nat := c.toNat - 48

theorem digitVal_digitChar (d : Nat) (h : d < 10) : digitVal (Nat.digitChar d) = d := by
  interval_cases d <;> rfl

/-- Horner evaluation of a digit list, most significant first, on top of an
accumulator. -/
def valAux (acc : Nat) (l : List Char) : Nat :=
  l.foldl (fun a c => a * 10 + digitVal c) acc

theorem valAux_append (acc : Nat) (l1 l2 : List Char) :
    valAux acc (l1 ++ l2) = valAux (valAux acc l1) l2 := by
  simp [valAux, List.foldl_append]

theorem valAux_digitsOf (n : Nat) :
    ∀ acc, valAux acc (digitsOf n) = acc * 10 ^ (digitsOf n).length + n := by
  induction n using Nat.strong_induction_on with
  | _ n ih =>
    intro acc
    by_cases h10 : n < 10
    · have hd : digitsOf n = [Nat.digitChar n] := by
        rw [digitsOf]
        exact dif_pos h10
      simp [hd, valAux, digitVal_digitChar n h10]
    · have hd : digitsOf n = digitsOf (n / 10) ++ [Nat.digitChar (n % 10)] := by
        rw [digitsOf]
        exact dif_neg h10
      have hdivlt : n / 10 < n := Nat.div_lt_self (by omega) (by omega)
      have hm : digitVal (Nat.digitChar (n % 10)) = n % 10 :=
        digitVal_digitChar (n % 10) (Nat.mod_lt n (by omega))
      have hval : ∀ (a : Nat) (c : Char), valAux a [c] = a * 10 + digitVal c :=
        fun a c => rfl
      have hlen : (digitsOf (n / 10) ++ [Nat.digitChar (n % 10)]).length
          = (digitsOf (n / 10)).length + 1 := by simp
      rw [hd, valAux_append, ih (n / 10) hdivlt acc, hlen, hval, hm, pow_succ,
        ← Nat.mul_assoc]
      generalize acc * 10 ^ (digitsOf (n / 10)).length = X
      omega

theorem digitsOf_injective : Function.Injective digitsOf := by
  intro m n h
  have hm := valAux_digitsOf m 0
  rw [h, valAux_digitsOf n 0] at hm
  simp only [Nat.zero_mul, Nat.zero_add] at hm
  omega

theorem nat_repr_injective : Function.Injective Nat.repr := by
  intro m n h
  apply digitsOf_injective
  have h2 : Nat.toDigits 10 m = Nat.toDigits 10 n := by
    have h3 := congrArg String.data h
    simpa [Nat.repr, List.asString] using h3
  rwa [toDigits_eq_digitsOf, toDigits_eq_digitsOf] at h2

theorem toString_nat_injective : Function.Injective (fun n : Nat => toString n) := by
  intro m n h
  exact nat_repr_injective h

/-! Behavior of iterated adds. -/

theorem entriesFrom_ids (k : Nat) (ts : List (String × String)) :
    (entriesFrom k ts).map (fun e => e.id)
      = (List.range' k ts.length).map (fun i => toString i) := by
  induction ts generalizing k with
  | nil => simp [entriesFrom]
  | cons t ts ih =>
    obtain ⟨u, a⟩ := t
    simp [entriesFrom, List.range'_succ, mkEntry, ih]

theorem addTurns_spec (ts : List (String × String)) :
    ∀ (db : ChatDB) (c : Collection), findColl db.client db.chat_db_name = some c →
      ∃ c2, (addTurns db ts).model_name = db.model_name ∧
        (addTurns db ts).chat_db_name = db.chat_db_name ∧
        (addTurns db ts).id_counter = db.id_counter + ts.length ∧
        findColl (addTurns db ts).client (addTurns db ts).chat_db_name = some c2 ∧
        c2.metric = c.metric ∧
        c2.entries = c.entries ++ entriesFrom db.id_counter ts := by
  induction ts with
  | nil =>
    intro db c h
    exact ⟨c, rfl, rfl, rfl, h, rfl, by simp [entriesFrom]⟩
  | cons t ts ih =>
    intro db c h
    obtain ⟨u, a⟩ := t
    have hstep : (ChatDB.add_conversation_to_db chroma_add db u a).1
        = { db with
            client := setColl db.client db.chat_db_name
              { c with entries := c.entries ++ [mkEntry db.id_counter u a] },
            id_counter := db.id_counter + 1 } := by
      simp [ChatDB.add_conversation_to_db, chroma_add, h]
    have hfind : findColl
        (setColl db.client db.chat_db_name
          { c with entries := c.entries ++ [mkEntry db.id_counter u a] })
        db.chat_db_name
        = some { c with entries := c.entries ++ [mkEntry db.id_counter u a] } :=
      findColl_setColl_self db.client db.chat_db_name c _ h
    simp only [addTurns, hstep]
    obtain ⟨c2, h1, h2, h3, h4, h5, h6⟩ := ih
      { db with
        client := setColl db.client db.chat_db_name
          { c with entries := c.entries ++ [mkEntry db.id_counter u a] },
        id_counter := db.id_counter + 1 }
      { c with entries := c.entries ++ [mkEntry db.id_counter u a] } hfind
    refine ⟨c2, h1, h2, ?_, h4, h5, ?_⟩
    · rw [h3]
      simp only [List.length_cons]
      omega
    · rw [h6]
      simp [entriesFrom]

/-- Concrete live store used by the witnesses: a freshly constructed,
empty collection named "chat_db". -/
def liveDB : ChatDB :=
  { model_name := "text-embedding-3-small"
  , client := [("chat_db", { metric := "cosine", entries := [] })]
  , chat_db_name := "chat_db"
  , id_counter := 0 }

/-- Concrete live store holding one turn, used by the witnesses. -/
def liveDB1 : ChatDB :=
  { model_name := "text-embedding-3-small"
  , client := [("chat_db", { metric := "cosine", entries := [mkEntry 0 "Hi" "Hello"] })]
  , chat_db_name := "chat_db"
  , id_counter := 1 }

/-- Concrete healthy backend used by the witnesses. -/
def okBackend : Backend := { reachable := true, valid_model := fun _ => true }

/-- C1: on a live store, `add` persists the composite document
`"User: {user_message}\nAI: {ai_message}"` with metadata
`{user_message, ai_message}` under the id `str(id_counter)`, appending it
to the collection, and then increments the counter by exactly one. -/
theorem add_conversation_spec (db : ChatDB) (u a : String) (c : Collection)
    (h : findColl db.client db.chat_db_name = some c) :
    ChatDB.add_conversation_to_db chroma_add db u a =
      ({ db with
          client := setColl db.client db.chat_db_name
            { c with entries := c.entries ++
              [{ id := toString db.id_counter
               , document := "User: " ++ u ++ "\nAI: " ++ a
               , metadata := { user_message := u, ai_message := a } }] },
          id_counter := db.id_counter + 1 }, .ok ()) := by
  simp [ChatDB.add_conversation_to_db, chroma_add, mkEntry, h]

/-- C1 witness at a concrete store and messages. -/
theorem add_conversation_spec_witness :
    ChatDB.add_conversation_to_db chroma_add liveDB "Hi" "Hello" =
      ({ liveDB with
          client := setColl liveDB.client "chat_db"
            { metric := "cosine", entries := [mkEntry 0 "Hi" "Hello"] },
          id_counter := 1 }, .ok ()) :=
  add_conversation_spec liveDB "Hi" "Hello" { metric := "cosine", entries := [] } rfl

/-- C2: on a live store holding k turns, `query` never fails; it returns
exactly min(n_results, k) results, ordered ascending by distance, each a
stored entry annotated with its distance to the query text. -/
theorem query_db_spec (d : String → String → ℚ) (db : ChatDB) (q : String) (n : Nat)
    (c : Collection) (h : findColl db.client db.chat_db_name = some c) :
    ∃ r, ChatDB.query_db d db q n = (db, .ok r) ∧
      r.length = min n c.entries.length ∧
      List.Sorted distLE r ∧
      ∀ p ∈ r, p.1 ∈ c.entries ∧ p.2 = d q p.1.document := by
  refine ⟨(List.insertionSort distLE
      (c.entries.map (fun e => (e, d q e.document)))).take n, ?_, ?_, ?_, ?_⟩
  · simp [ChatDB.query_db, h]
  · rw [List.length_take, List.length_insertionSort, List.length_map]
  · exact List.Pairwise.sublist (List.take_sublist n _)
      (List.sorted_insertionSort distLE _)
  · intro p hp
    have hp2 : p ∈ List.insertionSort distLE
        (c.entries.map (fun e => (e, d q e.document))) :=
      (List.take_sublist n _).subset hp
    have hp3 : p ∈ c.entries.map (fun e => (e, d q e.document)) :=
      (List.perm_insertionSort distLE _).subset hp2
    obtain ⟨e, he, rfl⟩ := List.mem_map.mp hp3
    exact ⟨he, rfl⟩

/-- C2 witness at a concrete one-turn store with a request for more
results than are stored. -/
theorem query_db_spec_witness :
    ∃ r, ChatDB.query_db (fun _ _ => (0 : ℚ)) liveDB1 "Food" 3 = (liveDB1, .ok r) ∧
      r.length = min 3 (Collection.mk "cosine" [mkEntry 0 "Hi" "Hello"]).entries.length ∧
      List.Sorted distLE r ∧
      ∀ p ∈ r, p.1 ∈ (Collection.mk "cosine" [mkEntry 0 "Hi" "Hello"]).entries ∧
        p.2 = (fun _ _ => (0 : ℚ)) "Food" p.1.document :=
  query_db_spec (fun _ _ => (0 : ℚ)) liveDB1 "Food" 3
    (Collection.mk "cosine" [mkEntry 0 "Hi" "Hello"]) rfl

/-- C3: when the backend write issued by `add` fails, the error propagates
unchanged and the object state is untouched; in particular the id counter
holds the same value after the failed call as before it. -/
theorem add_backend_failure_spec (w : Colls → String → Entry → Except ChromaErr Colls)
    (db : ChatDB) (u a : String) (e : ChromaErr)
    (h : w db.client db.chat_db_name (mkEntry db.id_counter u a) = .error e) :
    ChatDB.add_conversation_to_db w db u a = (db, .error e) ∧
    (ChatDB.add_conversation_to_db w db u a).1.id_counter = db.id_counter := by
  constructor
  · simp [ChatDB.add_conversation_to_db, h]
  · simp [ChatDB.add_conversation_to_db, h]

/-- C3 witness with a backend write that always fails. -/
theorem add_backend_failure_spec_witness :
    ChatDB.add_conversation_to_db (fun _ _ _ => .error .connectionFailure)
        liveDB "Hi" "Hello" = (liveDB, .error .connectionFailure) ∧
    (ChatDB.add_conversation_to_db (fun _ _ _ => .error .connectionFailure)
        liveDB "Hi" "Hello").1.id_counter = liveDB.id_counter :=
  add_backend_failure_spec (fun _ _ _ => .error .connectionFailure)
    liveDB "Hi" "Hello" .connectionFailure rfl

/-- C4: after any sequence of adds against a fresh store (empty collection,
counter zero), `get_all` returns exactly the turns added, in order of
addition, and their id strings are exactly the decimal strings of
0, 1, ..., n-1 with no duplicate; ids are assigned from a strictly
increasing counter, so no id value is ever reused. -/
theorem get_all_after_addTurns (db : ChatDB) (c : Collection)
    (ts : List (String × String))
    (hfind : findColl db.client db.chat_db_name = some c)
    (hempty : c.entries = []) (hzero : db.id_counter = 0) :
    ∃ es, (addTurns db ts).get_all_entries = (addTurns db ts, .ok es) ∧
      es = entriesFrom 0 ts ∧
      es.map (fun e => e.id) = (List.range ts.length).map (fun i => toString i) ∧
      (es.map (fun e => e.id)).Nodup := by
  obtain ⟨c2, h1, h2, h3, h4, h5, h6⟩ := addTurns_spec ts db c hfind
  rw [hempty, hzero] at h6
  simp only [List.nil_append] at h6
  refine ⟨c2.entries, ?_, h6, ?_, ?_⟩
  · simp [ChatDB.get_all_entries, h4]
  · rw [h6, entriesFrom_ids, List.range_eq_range']
  · rw [h6, entriesFrom_ids]
    exact (List.nodup_range' 0 ts.length).map toString_nat_injective

/-- C4 witness: two adds against a concrete fresh store. -/
theorem get_all_after_addTurns_witness :
    ∃ es, (addTurns liveDB [("Hi", "Hello"), ("Bye", "Later")]).get_all_entries
        = (addTurns liveDB [("Hi", "Hello"), ("Bye", "Later")], .ok es) ∧
      es = entriesFrom 0 [("Hi", "Hello"), ("Bye", "Later")] ∧
      es.map (fun e => e.id)
        = (List.range [("Hi", "Hello"), ("Bye", "Later")].length).map
            (fun i => toString i) ∧
      (es.map (fun e => e.id)).Nodup :=
  get_all_after_addTurns liveDB { metric := "cosine", entries := [] }
    [("Hi", "Hello"), ("Bye", "Later")] rfl rfl rfl

/-- C5: construction opens the named collection when it already exists and
creates it otherwise, configures it with the given embedding model and
cosine distance, and sets the id counter to zero; it fails exactly when
the backend is unreachable or the model identifier is invalid. -/
theorem init_spec (b : Backend) (colls : Colls) (name model_name : String) :
    (b.reachable = true → b.valid_model model_name = true →
      ∃ db, ChatDB.init b colls name model_name = .ok db ∧
        db.chat_db_name = name ∧ db.model_name = model_name ∧ db.id_counter = 0 ∧
        ∃ c, findColl db.client name = some c ∧ c.metric = "cosine" ∧
          (findColl colls name = none → c.entries = []) ∧
          (∀ c0, findColl colls name = some c0 → c.entries = c0.entries))
    ∧ (b.reachable = false →
        ChatDB.init b colls name model_name = .error .connectionFailure)
    ∧ (b.reachable = true → b.valid_model model_name = false →
        ChatDB.init b colls name model_name = .error .invalidModel) := by
  refine ⟨?_, ?_, ?_⟩
  · intro hr hv
    cases hfind : findColl colls name with
    | none =>
      refine ⟨{ model_name := model_name
              , client := colls ++ [(name, { metric := "cosine", entries := [] })]
              , chat_db_name := name
              , id_counter := 0 },
        ?_, rfl, rfl, rfl, { metric := "cosine", entries := [] },
        ?_, rfl, fun _ => rfl, ?_⟩
      · simp [ChatDB.init, create_collection, hr, hv, hfind]
      · exact findColl_append_right colls name _ hfind
      · intro c0 hc0
        exact Option.noConfusion hc0
    | some c =>
      refine ⟨{ model_name := model_name
              , client := setColl colls name { c with metric := "cosine" }
              , chat_db_name := name
              , id_counter := 0 },
        ?_, rfl, rfl, rfl, { c with metric := "cosine" }, ?_, rfl, ?_, ?_⟩
      · simp [ChatDB.init, create_collection, hr, hv, hfind]
      · exact findColl_setColl_self colls name c _ hfind
      · intro hnone
        exact Option.noConfusion hnone
      · intro c0 hc0
        obtain rfl := Option.some.inj hc0
        rfl
  · intro hr
    simp [ChatDB.init, create_collection, hr]
  · intro hr hv
    simp [ChatDB.init, create_collection, hr, hv]

/-- C5 witness: construction over an empty backend with a healthy
connection and valid model succeeds in the stated shape. -/
theorem init_spec_witness :
    ∃ db, ChatDB.init okBackend [] "chat_db" "text-embedding-3-small" = .ok db ∧
      db.chat_db_name = "chat_db" ∧ db.model_name = "text-embedding-3-small" ∧
      db.id_counter = 0 ∧
      ∃ c, findColl db.client "chat_db" = some c ∧ c.metric = "cosine" ∧
        (findColl ([] : Colls) "chat_db" = none → c.entries = []) ∧
        (∀ c0, findColl ([] : Colls) "chat_db" = some c0 → c.entries = c0.entries) :=
  (init_spec okBackend [] "chat_db" "text-embedding-3-small").1 rfl rfl

/-- C6: clearing with reinitialization yields a live store under the same
name and embedding model whose collection is empty and whose counter is
zero; `get_all` on it returns the empty list and the next `add` persists
an entry with id "0". -/
theorem clear_reinit_spec (b : Backend) (db : ChatDB) (c : Collection)
    (hc : findColl db.client db.chat_db_name = some c)
    (hr : b.reachable = true) (hv : b.valid_model db.model_name = true) :
    ∃ db2, ChatDB.clear_db b db true = (db2, .ok ()) ∧
      db2.chat_db_name = db.chat_db_name ∧ db2.model_name = db.model_name ∧
      db2.id_counter = 0 ∧
      db2.get_all_entries = (db2, .ok []) ∧
      ∀ u a, (ChatDB.add_conversation_to_db chroma_add db2 u a).2 = .ok () ∧
        ∃ c2, findColl (ChatDB.add_conversation_to_db chroma_add db2 u a).1.client
            db.chat_db_name = some c2 ∧
          c2.entries = [mkEntry 0 u a] ∧ (mkEntry 0 u a).id = "0" := by
  have hnone : findColl (eraseColl db.client db.chat_db_name) db.chat_db_name = none :=
    findColl_eraseColl_self db.client db.chat_db_name
  have hkey : findColl
      (eraseColl db.client db.chat_db_name
        ++ [(db.chat_db_name, { metric := "cosine", entries := [] })])
      db.chat_db_name = some { metric := "cosine", entries := [] } :=
    findColl_append_right _ _ _ hnone
  refine ⟨{ model_name := db.model_name
          , client := eraseColl db.client db.chat_db_name
              ++ [(db.chat_db_name, { metric := "cosine", entries := [] })]
          , chat_db_name := db.chat_db_name
          , id_counter := 0 }, ?_, rfl, rfl, rfl, ?_, ?_⟩
  · simp [ChatDB.clear_db, hc, ChatDB.init, create_collection, hr, hv, hnone]
  · simp [ChatDB.get_all_entries, hkey]
  · intro u a
    constructor
    · simp [ChatDB.add_conversation_to_db, chroma_add, hkey]
    · refine ⟨{ metric := "cosine", entries := [mkEntry 0 u a] }, ?_, rfl, rfl⟩
      simp only [ChatDB.add_conversation_to_db, chroma_add, hkey]
      exact findColl_setColl_self _ _ _ _ hkey

/-- C6 witness at a concrete one-turn store. -/
theorem clear_reinit_spec_witness :
    ∃ db2, ChatDB.clear_db okBackend liveDB1 true = (db2, .ok ()) ∧
      db2.chat_db_name = liveDB1.chat_db_name ∧
      db2.model_name = liveDB1.model_name ∧
      db2.id_counter = 0 ∧
      db2.get_all_entries = (db2, .ok []) ∧
      ∀ u a, (ChatDB.add_conversation_to_db chroma_add db2 u a).2 = .ok () ∧
        ∃ c2, findColl (ChatDB.add_conversation_to_db chroma_add db2 u a).1.client
            liveDB1.chat_db_name = some c2 ∧
          c2.entries = [mkEntry 0 u a] ∧ (mkEntry 0 u a).id = "0" :=
  clear_reinit_spec okBackend liveDB1
    { metric := "cosine", entries := [mkEntry 0 "Hi" "Hello"] } rfl rfl rfl

/-- C7: on a live store whose collection is empty, `query` returns the
empty result list with no error, for every query text and every
result-count request. -/
theorem query_empty_spec (d : String → String → ℚ) (db : ChatDB) (q : String) (n : Nat)
    (c : Collection) (hc : findColl db.client db.chat_db_name = some c)
    (he : c.entries = []) :
    ChatDB.query_db d db q n = (db, .ok []) := by
  simp [ChatDB.query_db, hc, he]

/-- C7 witness at a concrete fresh store. -/
theorem query_empty_spec_witness :
    ChatDB.query_db (fun _ _ => (0 : ℚ)) liveDB "Food" 5 = (liveDB, .ok []) :=
  query_empty_spec (fun _ _ => (0 : ℚ)) liveDB "Food" 5
    { metric := "cosine", entries := [] } rfl rfl

/-- C8: clearing without reinitialization succeeds, leaves the collection
deleted, and afterwards every operation (add, get_all, query, clear with
either flag) fails with the NotFound-class error. -/
theorem clear_destroy_spec (b : Backend) (db : ChatDB) (c : Collection)
    (hc : findColl db.client db.chat_db_name = some c) :
    ∃ db2, ChatDB.clear_db b db false = (db2, .ok ()) ∧
      findColl db2.client db2.chat_db_name = none ∧
      (∀ u a, ChatDB.add_conversation_to_db chroma_add db2 u a
        = (db2, .error .notFound)) ∧
      db2.get_all_entries = (db2, .error .notFound) ∧
      (∀ d q n, ChatDB.query_db d db2 q n = (db2, .error .notFound)) ∧
      (∀ b2 r, ChatDB.clear_db b2 db2 r = (db2, .error .notFound)) := by
  have hnone : findColl (eraseColl db.client db.chat_db_name) db.chat_db_name = none :=
    findColl_eraseColl_self db.client db.chat_db_name
  refine ⟨{ db with client := eraseColl db.client db.chat_db_name },
    ?_, hnone, ?_, ?_, ?_, ?_⟩
  · simp [ChatDB.clear_db, hc]
  · intro u a
    simp [ChatDB.add_conversation_to_db, chroma_add, hnone]
  · simp [ChatDB.get_all_entries, hnone]
  · intro d q n
    simp [ChatDB.query_db, hnone]
  · intro b2 r
    simp [ChatDB.clear_db, hnone]

/-- C8 witness at a concrete store. -/
theorem clear_destroy_spec_witness :
    ∃ db2, ChatDB.clear_db okBackend liveDB false = (db2, .ok ()) ∧
      findColl db2.client db2.chat_db_name = none ∧
      (∀ u a, ChatDB.add_conversation_to_db chroma_add db2 u a
        = (db2, .error .notFound)) ∧
      db2.get_all_entries = (db2, .error .notFound) ∧
      (∀ d q n, ChatDB.query_db d db2 q n = (db2, .error .notFound)) ∧
      (∀ b2 r, ChatDB.clear_db b2 db2 r = (db2, .error .notFound)) :=
  clear_destroy_spec okBackend liveDB { metric := "cosine", entries := [] } rfl

/-- C9: `add` validates nothing about its message arguments: on a live
store the call succeeds for every pair of strings, including empty
strings and strings containing the "User: "/"AI: " marker text; a failure
can only come from the backend write itself. -/
theorem add_no_validation (db : ChatDB) (u a : String) (c : Collection)
    (hc : findColl db.client db.chat_db_name = some c) :
    (ChatDB.add_conversation_to_db chroma_add db u a).2 = .ok () := by
  simp [ChatDB.add_conversation_to_db, chroma_add, hc]

/-- C9 witness: an empty user message and an assistant message consisting
of the marker text are accepted. -/
theorem add_no_validation_witness :
    (ChatDB.add_conversation_to_db chroma_add liveDB "" "User: x\nAI: y").2
      = .ok () :=
  add_no_validation liveDB "" "User: x\nAI: y" { metric := "cosine", entries := [] } rfl

/-- C10: `get_all` and `query` are read-only: on every store state they
return the object state unchanged, leaving the id counter and the stored
turns as they were. -/
theorem readonly_ops (db : ChatDB) (d : String → String → ℚ) (q : String) (n : Nat) :
    (ChatDB.get_all_entries db).1 = db ∧ (ChatDB.query_db d db q n).1 = db := by
  constructor
  · unfold ChatDB.get_all_entries
    cases findColl db.client db.chat_db_name <;> rfl
  · unfold ChatDB.query_db
    cases findColl db.client db.chat_db_name <;> rfl

end ChatStore
